import Mathlib

/-!
Verification of the c-match pattern-matching header (src/match.h).

The header encodes a pattern as a 64-bit pointer-sized integer: the top
nibble holds the pattern kind and the low bits hold the payload.  We model
a pattern as a `Nat` (the 64-bit image), a subject as the `intptr_t` it is
cast to (`Int`), and the process memory that variant patterns dereference
as an abstract map from addresses to stored words.  All functions below
are transcribed from `src/match.h`; line references are given on each
definition.
-/

namespace CMatch

/-- C cast of a signed 64-bit expression to `uintptr_t`/`uint64_t`:
two's-complement wrap modulo 2^64. -/
def u64 (x : Int) : Nat := (x % (18446744073709551616 : Int)).toNat

/-- C cast of a 64-bit unsigned value to `intptr_t`: reinterpret the low
64 bits as a signed two's-complement integer. -/
def i64 (n : Nat) : Int :=
  if n % 18446744073709551616 < 9223372036854775808 then
    ((n % 18446744073709551616 : Nat) : Int)
  else
    ((n % 18446744073709551616 : Nat) : Int) - 18446744073709551616

/-- C cast of a 16-bit value to `int16_t` (then sign-extended to
`intptr_t`, as in `intptr_t low = GET_RANGE_LOW(pattern)`). -/
def i16 (n : Nat) : Int :=
  if n % 65536 < 32768 then ((n % 65536 : Nat) : Int)
  else ((n % 65536 : Nat) : Int) - 65536

/-- match.h:305 — `#define __ ((void*)0x1DEADBEEF)`, the wildcard sentinel. -/
def WILDCARD : Nat := 0x1DEADBEEF

/-- match.h:306 — `IS_WILDCARD(v)`: pointer equality with the sentinel. -/
def IS_WILDCARD (v : Nat) : Bool := v == WILDCARD

/-- match.h:313 — `gt(val)`: tag nibble 1 or-ed with the low 60 bits of the
value (cast to `uintptr_t` first). -/
def gt (val : Int) : Nat := 0x1000000000000000 ||| (u64 val &&& 0x0FFFFFFFFFFFFFFF)

/-- match.h:314 — `ge(val)`. -/
def ge (val : Int) : Nat := 0x2000000000000000 ||| (u64 val &&& 0x0FFFFFFFFFFFFFFF)

/-- match.h:315 — `lt(val)`. -/
def lt (val : Int) : Nat := 0x3000000000000000 ||| (u64 val &&& 0x0FFFFFFFFFFFFFFF)

/-- match.h:316 — `le(val)`. -/
def le (val : Int) : Nat := 0x4000000000000000 ||| (u64 val &&& 0x0FFFFFFFFFFFFFFF)

/-- match.h:317 — `ne(val)`. -/
def ne (val : Int) : Nat := 0x5000000000000000 ||| (u64 val &&& 0x0FFFFFFFFFFFFFFF)

/-- match.h:320 — `range(low, high)`: tag nibble 6, the bounds truncated to
`uint16_t` and packed at bits 32..47 and 0..15. -/
def range (low high : Int) : Nat :=
  0x6000000000000000 ||| (((u64 low % 65536) <<< 32) ||| (u64 high % 65536))

/-- match.h:321 — `between(low, high)`: tag nibble 7, same packing. -/
def between (low high : Int) : Nat :=
  0x7000000000000000 ||| (((u64 low % 65536) <<< 32) ||| (u64 high % 65536))

/-- match.h:324 — `variant(tag)`: tag nibble 8, the expected discriminant
(cast to `uint32_t`) at bits 16..47, extract flag 1 in bit 0. -/
def variant (tag : Nat) : Nat :=
  0x8000000000000000 ||| (((tag % 4294967296) <<< 16) ||| 1)

/-- match.h:471 — `_auto_pattern` applied to an integer argument:
`((void*)(intptr_t)(x))`, i.e. the value itself as the encoded literal
pattern. -/
def literal (x : Int) : Nat := u64 x

/-- match.h:330 — `GET_PATTERN_TYPE(p)`: top nibble. -/
def GET_PATTERN_TYPE (p : Nat) : Nat := (p >>> 60) &&& 0xF

/-- match.h:331 — `GET_PATTERN_VALUE(p)`: low 60 bits, cast to `intptr_t`. -/
def GET_PATTERN_VALUE (p : Nat) : Int := i64 (p &&& 0x0FFFFFFFFFFFFFFF)

/-- match.h:332 — `GET_RANGE_LOW(p)`: bits 32..47 as `int16_t`. -/
def GET_RANGE_LOW (p : Nat) : Int := i16 ((p >>> 32) &&& 0xFFFF)

/-- match.h:333 — `GET_RANGE_HIGH(p)`: bits 0..15 as `int16_t`. -/
def GET_RANGE_HIGH (p : Nat) : Int := i16 (p &&& 0xFFFF)

/-- match.h:334 — `GET_VARIANT_TAG(p)`: bits 16..47 as `uint32_t`. -/
def GET_VARIANT_TAG (p : Nat) : Nat := (p >>> 16) &&& 0xFFFFFFFF

/-- match.h:403 — default `VARIANT_UNION_OFFSET`: payload sits 8 bytes
after the discriminant. -/
def VARIANT_UNION_OFFSET : Nat := 8

/-- Abstract process memory: the word stored at each address.  Variant
patterns read the subject's leading `uint32_t` discriminant through it. -/
def Mem : Type := Nat → Nat

/-- A `uint32_t` load from memory: yields the low 32 bits of the stored
word (a 32-bit load cannot observe more). -/
def readU32 (mem : Mem) (addr : Nat) : Nat := mem addr &&& 0xFFFFFFFF

/-- match.h:368-414 — `evaluate_pattern(actual, pattern)`.  The first
component is the returned `int` as a `Bool`; the second models the write
to the thread-local `__variant_extracted_value` slot (`some h` when the
slot is set to payload handle `h`, `none` when it is left untouched). -/
def evaluate_pattern (mem : Mem) (actual : Int) (pattern : Nat) : Bool × Option Nat :=
  if IS_WILDCARD pattern then (true, none)
  else
    let type := GET_PATTERN_TYPE pattern
    if type = 0 then (decide (actual = i64 pattern), none)  -- literal match
    else if type = 1 then (decide (actual > GET_PATTERN_VALUE pattern), none)
    else if type = 2 then (decide (actual ≥ GET_PATTERN_VALUE pattern), none)
    else if type = 3 then (decide (actual < GET_PATTERN_VALUE pattern), none)
    else if type = 4 then (decide (actual ≤ GET_PATTERN_VALUE pattern), none)
    else if type = 5 then (decide (actual ≠ GET_PATTERN_VALUE pattern), none)
    else if type = 6 then  -- range (exclusive)
      let low := GET_RANGE_LOW pattern
      let high := GET_RANGE_HIGH pattern
      (decide (actual > low) && decide (actual < high), none)
    else if type = 7 then  -- between (inclusive)
      let low := GET_RANGE_LOW pattern
      let high := GET_RANGE_HIGH pattern
      (decide (actual ≥ low) && decide (actual ≤ high), none)
    else if type = 8 then  -- variant destructuring
      let expected_tag := GET_VARIANT_TAG pattern
      let union_tag := readU32 mem (u64 actual)
      if union_tag = expected_tag then
        (true, some (u64 actual + VARIANT_UNION_OFFSET))
      else (false, none)
    else (false, none)

/-- match.h:416-445 — `evaluate_pattern_enhanced(subject, actual, pattern)`:
the auto-variant heuristic, falling back to `evaluate_pattern` whenever any
of its guards fails. -/
def evaluate_pattern_enhanced (mem : Mem) (subject : Nat) (actual : Int)
    (pattern : Nat) : Bool × Option Nat :=
  if subject ≠ 0 ∧ subject > 0x1000 then
    -- if actual looks like a pointer, use it as the struct address
    let actual_struct : Nat := if u64 actual > 0x1000 then u64 actual else subject
    if pattern ≤ 0xFFFF ∧ pattern >>> 60 = 0 then
      let potential_tag := readU32 mem actual_struct
      if 0 < potential_tag ∧ potential_tag ≤ 0xFFFF then
        if potential_tag = pattern % 4294967296 then
          let variant_pattern : Nat :=
            0x8000000000000000 ||| ((potential_tag <<< 16) ||| 1)
          evaluate_pattern mem (i64 actual_struct) variant_pattern
        else evaluate_pattern mem actual pattern
      else evaluate_pattern mem actual pattern
    else evaluate_pattern mem actual pattern
  else evaluate_pattern mem actual pattern

/-! ### Arithmetic normal forms for the bit-packed encodings -/

theorem mask60_eq_mod (n : Nat) : n &&& 0x0FFFFFFFFFFFFFFF = n % 1152921504606846976 := by
  have h : (0x0FFFFFFFFFFFFFFF : Nat) = 2 ^ 60 - 1 := by norm_num
  rw [h, Nat.and_pow_two_sub_one_eq_mod]

theorem mask16_eq_mod (n : Nat) : n &&& 0xFFFF = n % 65536 := by
  have h : (0xFFFF : Nat) = 2 ^ 16 - 1 := by norm_num
  rw [h, Nat.and_pow_two_sub_one_eq_mod]

theorem mask32_eq_mod (n : Nat) : n &&& 0xFFFFFFFF = n % 4294967296 := by
  have h : (0xFFFFFFFF : Nat) = 2 ^ 32 - 1 := by norm_num
  rw [h, Nat.and_pow_two_sub_one_eq_mod]

theorem mask4_eq_mod (n : Nat) : n &&& 0xF = n % 16 := by
  have h : (0xF : Nat) = 2 ^ 4 - 1 := by norm_num
  rw [h, Nat.and_pow_two_sub_one_eq_mod]

theorem or_split (k t b : Nat) (hb : b < 2 ^ k) : (2 ^ k * t) ||| b = 2 ^ k * t + b :=
  (Nat.mul_add_lt_is_or hb t).symm

/-- The five comparison encoders share one payload layout. -/
theorem cmp_pat_eq (c : Nat) (v : Int) :
    c * 1152921504606846976 ||| (u64 v &&& 0x0FFFFFFFFFFFFFFF)
      = 1152921504606846976 * c + u64 v % 1152921504606846976 := by
  rw [mask60_eq_mod]
  have h60 : (1152921504606846976 : Nat) = 2 ^ 60 := by norm_num
  rw [h60, Nat.mul_comm c, or_split 60 c _ (Nat.mod_lt _ (by norm_num))]

theorem gt_eq (v : Int) : gt v = 1152921504606846976 * 1 + u64 v % 1152921504606846976 := by
  have h : gt v = 1 * 1152921504606846976 ||| (u64 v &&& 0x0FFFFFFFFFFFFFFF) := by
    unfold gt; norm_num
  rw [h, cmp_pat_eq 1 v]

theorem ge_eq (v : Int) : ge v = 1152921504606846976 * 2 + u64 v % 1152921504606846976 := by
  have h : ge v = 2 * 1152921504606846976 ||| (u64 v &&& 0x0FFFFFFFFFFFFFFF) := by
    unfold ge; norm_num
  rw [h, cmp_pat_eq 2 v]

theorem lt_eq (v : Int) : lt v = 1152921504606846976 * 3 + u64 v % 1152921504606846976 := by
  have h : lt v = 3 * 1152921504606846976 ||| (u64 v &&& 0x0FFFFFFFFFFFFFFF) := by
    unfold lt; norm_num
  rw [h, cmp_pat_eq 3 v]

theorem le_eq (v : Int) : le v = 1152921504606846976 * 4 + u64 v % 1152921504606846976 := by
  have h : le v = 4 * 1152921504606846976 ||| (u64 v &&& 0x0FFFFFFFFFFFFFFF) := by
    unfold le; norm_num
  rw [h, cmp_pat_eq 4 v]

theorem ne_eq_pat (v : Int) : ne v = 1152921504606846976 * 5 + u64 v % 1152921504606846976 := by
  have h : ne v = 5 * 1152921504606846976 ||| (u64 v &&& 0x0FFFFFFFFFFFFFFF) := by
    unfold ne; norm_num
  rw [h, cmp_pat_eq 5 v]

theorem range_eq (lo hi : Int) :
    range lo hi
      = 1152921504606846976 * 6 + (4294967296 * (u64 lo % 65536) + u64 hi % 65536) := by
  unfold range
  rw [Nat.shiftLeft_eq]
  have h32 : (2 : Nat) ^ 32 = 4294967296 := by norm_num
  have hinner : u64 lo % 65536 * 2 ^ 32 ||| u64 hi % 65536
      = 2 ^ 32 * (u64 lo % 65536) + u64 hi % 65536 := by
    rw [Nat.mul_comm (u64 lo % 65536), or_split 32 _ _ (by omega)]
  rw [hinner]
  have houter : (0x6000000000000000 : Nat) = 2 ^ 60 * 6 := by norm_num
  rw [houter, or_split 60 6 _ (by omega)]
  norm_num

theorem between_eq (lo hi : Int) :
    between lo hi
      = 1152921504606846976 * 7 + (4294967296 * (u64 lo % 65536) + u64 hi % 65536) := by
  unfold between
  rw [Nat.shiftLeft_eq]
  have hinner : u64 lo % 65536 * 2 ^ 32 ||| u64 hi % 65536
      = 2 ^ 32 * (u64 lo % 65536) + u64 hi % 65536 := by
    rw [Nat.mul_comm (u64 lo % 65536), or_split 32 _ _ (by omega)]
  rw [hinner]
  have houter : (0x7000000000000000 : Nat) = 2 ^ 60 * 7 := by norm_num
  rw [houter, or_split 60 7 _ (by omega)]
  norm_num

theorem variant_eq (tag : Nat) :
    variant tag = 1152921504606846976 * 8 + (65536 * (tag % 4294967296) + 1) := by
  unfold variant
  rw [Nat.shiftLeft_eq]
  have hinner : tag % 4294967296 * 2 ^ 16 ||| 1
      = 2 ^ 16 * (tag % 4294967296) + 1 := by
    rw [Nat.mul_comm (tag % 4294967296), or_split 16 _ _ (by omega)]
  rw [hinner]
  have houter : (0x8000000000000000 : Nat) = 2 ^ 60 * 8 := by norm_num
  rw [houter, or_split 60 8 _ (by omega)]
  norm_num

/-! ### Decoding lemmas -/

theorem GET_PATTERN_TYPE_pack (t b : Nat) (ht : t < 16) (hb : b < 1152921504606846976) :
    GET_PATTERN_TYPE (1152921504606846976 * t + b) = t := by
  unfold GET_PATTERN_TYPE
  rw [Nat.shiftRight_eq_div_pow, mask4_eq_mod]
  have h : (2 : Nat) ^ 60 = 1152921504606846976 := by norm_num
  rw [h]
  omega

theorem GET_PATTERN_VALUE_pack (t : Nat) (v : Int) (hv0 : 0 ≤ v)
    (hv : v < 1152921504606846976) :
    GET_PATTERN_VALUE (1152921504606846976 * t + u64 v % 1152921504606846976) = v := by
  unfold GET_PATTERN_VALUE u64 i64
  rw [mask60_eq_mod]
  split <;> omega

theorem GET_RANGE_LOW_pack (t : Nat) (lo hi : Int) (h1 : -32768 ≤ lo) (h2 : lo < 32768) :
    GET_RANGE_LOW (1152921504606846976 * t + (4294967296 * (u64 lo % 65536) + u64 hi % 65536))
      = lo := by
  unfold GET_RANGE_LOW u64 i16
  rw [Nat.shiftRight_eq_div_pow, mask16_eq_mod]
  have h : (2 : Nat) ^ 32 = 4294967296 := by norm_num
  rw [h]
  split <;> omega

theorem GET_RANGE_HIGH_pack (t : Nat) (lo hi : Int) (h1 : -32768 ≤ hi) (h2 : hi < 32768) :
    GET_RANGE_HIGH (1152921504606846976 * t + (4294967296 * (u64 lo % 65536) + u64 hi % 65536))
      = hi := by
  unfold GET_RANGE_HIGH u64 i16
  rw [mask16_eq_mod]
  split <;> omega

theorem GET_VARIANT_TAG_variant (tag : Nat) (h : tag < 4294967296) :
    GET_VARIANT_TAG (variant tag) = tag := by
  rw [variant_eq]
  unfold GET_VARIANT_TAG
  rw [Nat.shiftRight_eq_div_pow, mask32_eq_mod]
  have h16 : (2 : Nat) ^ 16 = 65536 := by norm_num
  rw [h16]
  omega

theorem u64_ofNat (n : Nat) (h : n < 18446744073709551616) : u64 (n : Int) = n := by
  unfold u64; omega

/-! ### Evaluator characterizations for each explicit pattern form -/

theorem evaluate_gt (mem : Mem) (x v : Int) (h0 : 0 ≤ v) (h1 : v < 1152921504606846976) :
    evaluate_pattern mem x (gt v) = (decide (x > v), none) := by
  have hp := gt_eq v
  have htype : GET_PATTERN_TYPE (gt v) = 1 := by
    rw [hp]; exact GET_PATTERN_TYPE_pack 1 _ (by norm_num) (by omega)
  have hval : GET_PATTERN_VALUE (gt v) = v := by
    rw [hp]; exact GET_PATTERN_VALUE_pack 1 v h0 h1
  have hw : IS_WILDCARD (gt v) = false := by
    unfold IS_WILDCARD WILDCARD
    simp only [beq_eq_false_iff_ne]
    rw [hp]; omega
  simp only [evaluate_pattern, hw, htype, hval]
  norm_num

theorem evaluate_ge (mem : Mem) (x v : Int) (h0 : 0 ≤ v) (h1 : v < 1152921504606846976) :
    evaluate_pattern mem x (ge v) = (decide (x ≥ v), none) := by
  have hp := ge_eq v
  have htype : GET_PATTERN_TYPE (ge v) = 2 := by
    rw [hp]; exact GET_PATTERN_TYPE_pack 2 _ (by norm_num) (by omega)
  have hval : GET_PATTERN_VALUE (ge v) = v := by
    rw [hp]; exact GET_PATTERN_VALUE_pack 2 v h0 h1
  have hw : IS_WILDCARD (ge v) = false := by
    unfold IS_WILDCARD WILDCARD
    simp only [beq_eq_false_iff_ne]
    rw [hp]; omega
  simp only [evaluate_pattern, hw, htype, hval]
  norm_num

theorem evaluate_lt (mem : Mem) (x v : Int) (h0 : 0 ≤ v) (h1 : v < 1152921504606846976) :
    evaluate_pattern mem x (lt v) = (decide (x < v), none) := by
  have hp := lt_eq v
  have htype : GET_PATTERN_TYPE (lt v) = 3 := by
    rw [hp]; exact GET_PATTERN_TYPE_pack 3 _ (by norm_num) (by omega)
  have hval : GET_PATTERN_VALUE (lt v) = v := by
    rw [hp]; exact GET_PATTERN_VALUE_pack 3 v h0 h1
  have hw : IS_WILDCARD (lt v) = false := by
    unfold IS_WILDCARD WILDCARD
    simp only [beq_eq_false_iff_ne]
    rw [hp]; omega
  simp only [evaluate_pattern, hw, htype, hval]
  norm_num

theorem evaluate_le (mem : Mem) (x v : Int) (h0 : 0 ≤ v) (h1 : v < 1152921504606846976) :
    evaluate_pattern mem x (le v) = (decide (x ≤ v), none) := by
  have hp := le_eq v
  have htype : GET_PATTERN_TYPE (le v) = 4 := by
    rw [hp]; exact GET_PATTERN_TYPE_pack 4 _ (by norm_num) (by omega)
  have hval : GET_PATTERN_VALUE (le v) = v := by
    rw [hp]; exact GET_PATTERN_VALUE_pack 4 v h0 h1
  have hw : IS_WILDCARD (le v) = false := by
    unfold IS_WILDCARD WILDCARD
    simp only [beq_eq_false_iff_ne]
    rw [hp]; omega
  simp only [evaluate_pattern, hw, htype, hval]
  norm_num

theorem evaluate_ne (mem : Mem) (x v : Int) (h0 : 0 ≤ v) (h1 : v < 1152921504606846976) :
    evaluate_pattern mem x (ne v) = (decide (x ≠ v), none) := by
  have hp := ne_eq_pat v
  have htype : GET_PATTERN_TYPE (ne v) = 5 := by
    rw [hp]; exact GET_PATTERN_TYPE_pack 5 _ (by norm_num) (by omega)
  have hval : GET_PATTERN_VALUE (ne v) = v := by
    rw [hp]; exact GET_PATTERN_VALUE_pack 5 v h0 h1
  have hw : IS_WILDCARD (ne v) = false := by
    unfold IS_WILDCARD WILDCARD
    simp only [beq_eq_false_iff_ne]
    rw [hp]; omega
  simp only [evaluate_pattern, hw, htype, hval]
  norm_num

theorem evaluate_range (mem : Mem) (x lo hi : Int)
    (hlo1 : -32768 ≤ lo) (hlo2 : lo < 32768) (hhi1 : -32768 ≤ hi) (hhi2 : hi < 32768) :
    evaluate_pattern mem x (range lo hi) = (decide (x > lo) && decide (x < hi), none) := by
  have hp := range_eq lo hi
  have htype : GET_PATTERN_TYPE (range lo hi) = 6 := by
    rw [hp]
    refine GET_PATTERN_TYPE_pack 6 _ (by norm_num) ?hb
    have h1 : u64 lo % 65536 < 65536 := Nat.mod_lt _ (by norm_num)
    have h2 : u64 hi % 65536 < 65536 := Nat.mod_lt _ (by norm_num)
    omega
  have hlow : GET_RANGE_LOW (range lo hi) = lo := by
    rw [hp]; exact GET_RANGE_LOW_pack 6 lo hi hlo1 hlo2
  have hhigh : GET_RANGE_HIGH (range lo hi) = hi := by
    rw [hp]; exact GET_RANGE_HIGH_pack 6 lo hi hhi1 hhi2
  have hw : IS_WILDCARD (range lo hi) = false := by
    unfold IS_WILDCARD WILDCARD
    simp only [beq_eq_false_iff_ne]
    rw [hp]; omega
  simp only [evaluate_pattern, hw, htype, hlow, hhigh]
  norm_num

theorem evaluate_between (mem : Mem) (x lo hi : Int)
    (hlo1 : -32768 ≤ lo) (hlo2 : lo < 32768) (hhi1 : -32768 ≤ hi) (hhi2 : hi < 32768) :
    evaluate_pattern mem x (between lo hi) = (decide (x ≥ lo) && decide (x ≤ hi), none) := by
  have hp := between_eq lo hi
  have htype : GET_PATTERN_TYPE (between lo hi) = 7 := by
    rw [hp]
    refine GET_PATTERN_TYPE_pack 7 _ (by norm_num) ?hb
    have h1 : u64 lo % 65536 < 65536 := Nat.mod_lt _ (by norm_num)
    have h2 : u64 hi % 65536 < 65536 := Nat.mod_lt _ (by norm_num)
    omega
  have hlow : GET_RANGE_LOW (between lo hi) = lo := by
    rw [hp]; exact GET_RANGE_LOW_pack 7 lo hi hlo1 hlo2
  have hhigh : GET_RANGE_HIGH (between lo hi) = hi := by
    rw [hp]; exact GET_RANGE_HIGH_pack 7 lo hi hhi1 hhi2
  have hw : IS_WILDCARD (between lo hi) = false := by
    unfold IS_WILDCARD WILDCARD
    simp only [beq_eq_false_iff_ne]
    rw [hp]; omega
  simp only [evaluate_pattern, hw, htype, hlow, hhigh]
  norm_num

theorem evaluate_literal (mem : Mem) (y x : Int) (h0 : 0 ≤ x)
    (h1 : x < 1152921504606846976) (hx : x ≠ 0x1DEADBEEF) :
    evaluate_pattern mem y (literal x) = (decide (y = x), none) := by
  have hlit : literal x = x.toNat := by unfold literal u64; omega
  have htype : GET_PATTERN_TYPE (literal x) = 0 := by
    unfold GET_PATTERN_TYPE
    rw [Nat.shiftRight_eq_div_pow, mask4_eq_mod, hlit]
    have h : (2 : Nat) ^ 60 = 1152921504606846976 := by norm_num
    rw [h]; omega
  have hval : i64 (literal x) = x := by
    rw [hlit]; unfold i64; split <;> omega
  have hw : IS_WILDCARD (literal x) = false := by
    unfold IS_WILDCARD WILDCARD
    simp only [beq_eq_false_iff_ne]
    rw [hlit]; omega
  simp only [evaluate_pattern, hw, htype, hval]
  norm_num

/-- All-zero memory, used for concrete counterexample evaluations. -/
def mem0 : Mem := fun _ => 0

/-- C2: the claim as stated quantifies over all bounds, but `range` and
`between` truncate the bounds to 16 bits (match.h:320-321): with
`between(0, 65536)` the upper bound wraps to 0, so the subject 1, although
inside [0, 65536], does not match. -/
theorem C2_counterexample :
    ((0 : Int) ≤ 1 ∧ (1 : Int) ≤ 65536) ∧
      (evaluate_pattern mem0 1 (between 0 65536)).fst = false := by
  decide

/-- C2 (amended): for bounds representable as 16-bit signed integers
(`-32768 ≤ lo, hi < 32768`), `evaluate(x, between(lo, hi))` is true iff
`lo ≤ x ≤ hi` and `evaluate(x, range(lo, hi))` is true iff `lo < x < hi`,
for every subject `x`. -/
theorem C2_range_between_semantics (mem : Mem) (x lo hi : Int)
    (hlo1 : -32768 ≤ lo) (hlo2 : lo < 32768) (hhi1 : -32768 ≤ hi) (hhi2 : hi < 32768) :
    ((evaluate_pattern mem x (between lo hi)).fst = true ↔ (lo ≤ x ∧ x ≤ hi)) ∧
    ((evaluate_pattern mem x (range lo hi)).fst = true ↔ (lo < x ∧ x < hi)) := by
  rw [evaluate_between mem x lo hi hlo1 hlo2 hhi1 hhi2,
    evaluate_range mem x lo hi hlo1 hlo2 hhi1 hhi2]
  constructor
  · simp [ge_iff_le, and_comm]
  · simp [and_comm]

/-- Witness for C2's theorem: bounds 1 and 5 with subject 5 — `between`
includes the upper boundary, `range` excludes it. -/
theorem C2_witness :
    ((evaluate_pattern mem0 5 (between 1 5)).fst = true ↔ ((1 : Int) ≤ 5 ∧ (5 : Int) ≤ 5)) ∧
    ((evaluate_pattern mem0 5 (range 1 5)).fst = true ↔ ((1 : Int) < 5 ∧ (5 : Int) < 5)) :=
  C2_range_between_semantics mem0 5 1 5 (by norm_num) (by norm_num) (by norm_num) (by norm_num)

/-- C3: the claim as stated quantifies over every scalar; it fails for
negative scalars — the literal pattern for -1 carries type nibble 15, which
no switch case handles, so `evaluate(-1, literal(-1))` is false — and for
the scalar 0x1DEADBEEF, whose literal encoding is the wildcard sentinel and
therefore matches the unequal subject 7. -/
theorem C3_counterexample :
    (evaluate_pattern mem0 (-1) (literal (-1))).fst = false ∧
      ((7 : Int) ≠ 0x1DEADBEEF ∧
        (evaluate_pattern mem0 7 (literal 0x1DEADBEEF)).fst = true) := by
  decide

/-- C3 (amended): for every scalar `x` with `0 ≤ x < 2^60` whose encoding
is not the wildcard sentinel (`x ≠ 0x1DEADBEEF`), `evaluate(x, literal(x))`
is true and `evaluate(y, literal(x))` is false for every subject `y ≠ x`. -/
theorem C3_literal_semantics (mem : Mem) (x : Int) (h0 : 0 ≤ x)
    (h1 : x < 1152921504606846976) (hx : x ≠ 0x1DEADBEEF) :
    (evaluate_pattern mem x (literal x)).fst = true ∧
      ∀ y : Int, y ≠ x → (evaluate_pattern mem y (literal x)).fst = false := by
  constructor
  · rw [evaluate_literal mem x x h0 h1 hx]; simp
  · intro y hy
    rw [evaluate_literal mem y x h0 h1 hx]
    simpa using hy

/-- Witness for C3's theorem: the literal 42 matches 42 and rejects 41. -/
theorem C3_witness :
    (evaluate_pattern mem0 42 (literal 42)).fst = true ∧
      ∀ y : Int, y ≠ 42 → (evaluate_pattern mem0 y (literal 42)).fst = false :=
  C3_literal_semantics mem0 42 (by norm_num) (by norm_num) (by norm_num)

/-- C5: the claim as stated quantifies over every comparison value; it
fails for negative values — `gt(-1)` masks the value to the low 60 bits
(match.h:313), decoding to 2^60 - 1, so the subject 0 fails the test even
though 0 > -1 under the natural ordering. -/
theorem C5_counterexample :
    ((0 : Int) > -1) ∧ (evaluate_pattern mem0 0 (gt (-1))).fst = false := by
  decide

/-- C5 (amended): for every comparison value `v` with `0 ≤ v < 2^60` (the
60-bit payload field stores it exactly) and every subject `x`,
`evaluate(x, gt/ge/lt/le/ne(v))` is true iff the corresponding comparison
between `x` and `v` holds under the natural (signed) ordering. -/
theorem C5_compare_semantics (mem : Mem) (x v : Int) (h0 : 0 ≤ v)
    (h1 : v < 1152921504606846976) :
    ((evaluate_pattern mem x (gt v)).fst = true ↔ x > v) ∧
    ((evaluate_pattern mem x (ge v)).fst = true ↔ x ≥ v) ∧
    ((evaluate_pattern mem x (lt v)).fst = true ↔ x < v) ∧
    ((evaluate_pattern mem x (le v)).fst = true ↔ x ≤ v) ∧
    ((evaluate_pattern mem x (ne v)).fst = true ↔ x ≠ v) := by
  rw [evaluate_gt mem x v h0 h1, evaluate_ge mem x v h0 h1, evaluate_lt mem x v h0 h1,
    evaluate_le mem x v h0 h1, evaluate_ne mem x v h0 h1]
  simp

/-- Witness for C5's theorem: comparisons against 10 at subject 7. -/
theorem C5_witness :
    ((evaluate_pattern mem0 7 (gt 10)).fst = true ↔ (7 : Int) > 10) ∧
    ((evaluate_pattern mem0 7 (ge 10)).fst = true ↔ (7 : Int) ≥ 10) ∧
    ((evaluate_pattern mem0 7 (lt 10)).fst = true ↔ (7 : Int) < 10) ∧
    ((evaluate_pattern mem0 7 (le 10)).fst = true ↔ (7 : Int) ≤ 10) ∧
    ((evaluate_pattern mem0 7 (ne 10)).fst = true ↔ (7 : Int) ≠ 10) :=
  C5_compare_semantics mem0 7 10 (by norm_num) (by norm_num)

/-- C10: the wildcard is the single sentinel pointer value 0x1DEADBEEF
(match.h:305), so the literal pattern whose encoded value is 0x1DEADBEEF
is the wildcard itself and matches every subject, instead of
exact-equality matching on that one value. -/
theorem C10_wildcard_collision (mem : Mem) (x : Int) :
    literal 0x1DEADBEEF = WILDCARD ∧
      (evaluate_pattern mem x (literal 0x1DEADBEEF)).fst = true := by
  constructor
  · decide
  · have h : IS_WILDCARD (literal 0x1DEADBEEF) = true := by decide
    simp [evaluate_pattern, h]

theorem i64_ofNat (n : Nat) (h : n < 9223372036854775808) : i64 n = (n : Int) := by
  unfold i64; split <;> omega

theorem evaluate_variant (mem : Mem) (addr t : Nat)
    (haddr : addr < 9223372036854775808) (ht : t < 4294967296) :
    evaluate_pattern mem (addr : Int) (variant t)
      = if readU32 mem addr = t then (true, some (addr + VARIANT_UNION_OFFSET))
        else (false, none) := by
  have hp := variant_eq t
  have htype : GET_PATTERN_TYPE (variant t) = 8 := by
    rw [hp]; exact GET_PATTERN_TYPE_pack 8 _ (by norm_num) (by omega)
  have htag : GET_VARIANT_TAG (variant t) = t := GET_VARIANT_TAG_variant t ht
  have hw : IS_WILDCARD (variant t) = false := by
    unfold IS_WILDCARD WILDCARD
    simp only [beq_eq_false_iff_ne]
    rw [hp]; omega
  have hu : u64 (addr : Int) = addr := u64_ofNat addr (by omega)
  simp only [evaluate_pattern, hw, htype, htag, hu]
  norm_num

/-- C6: for a TaggedValue reference (address `addr` whose leading `uint32`
field is the discriminant, read through memory) and a `uint32` tag `t`,
`evaluate(s, variant(t))` is true iff the discriminant equals `t`; on
success the payload handle `addr + VARIANT_UNION_OFFSET` is recorded as
the current extracted value, and on a mismatch the evaluator returns
false with the slot untouched (no error is raised — the function is
total). -/
theorem C6_variant_semantics (mem : Mem) (addr t : Nat)
    (haddr : addr < 9223372036854775808) (ht : t < 4294967296) :
    ((evaluate_pattern mem (addr : Int) (variant t)).fst = true ↔ readU32 mem addr = t) ∧
    (readU32 mem addr = t →
      evaluate_pattern mem (addr : Int) (variant t)
        = (true, some (addr + VARIANT_UNION_OFFSET))) ∧
    (readU32 mem addr ≠ t →
      evaluate_pattern mem (addr : Int) (variant t) = (false, none)) := by
  rw [evaluate_variant mem addr t haddr ht]
  by_cases h : readU32 mem addr = t <;> simp [h]

/-- Concrete memory with a TaggedValue at address 0x2000: discriminant 3
with arbitrary payload, and a second one at 0x3000 with discriminant 1. -/
def mem4 : Mem := fun a => if a = 0x3000 then 1 else if a = 0x2000 then 3 else 0

/-- Witness for C6's theorem: the TaggedValue at 0x2000 carries
discriminant 3, so `variant(3)` matches and records the payload handle
0x2008, while `variant(4)` fails. -/
theorem C6_witness :
    ((evaluate_pattern mem4 (0x2000 : Int) (variant 3)).fst = true ↔ readU32 mem4 0x2000 = 3) ∧
    (readU32 mem4 0x2000 = 3 →
      evaluate_pattern mem4 (0x2000 : Int) (variant 3)
        = (true, some (0x2000 + VARIANT_UNION_OFFSET))) ∧
    (readU32 mem4 0x2000 ≠ 3 →
      evaluate_pattern mem4 (0x2000 : Int) (variant 3) = (false, none)) :=
  C6_variant_semantics mem4 0x2000 3 (by norm_num) (by norm_num)

/-- The explicitly encoded pattern forms of the public constructor set. -/
def IsExplicitPattern (p : Nat) : Prop :=
  p = WILDCARD ∨ (∃ v, p = gt v) ∨ (∃ v, p = ge v) ∨ (∃ v, p = lt v) ∨
    (∃ v, p = le v) ∨ (∃ v, p = ne v) ∨ (∃ lo hi, p = range lo hi) ∨
    (∃ lo hi, p = between lo hi) ∨ (∃ t, p = variant t)

theorem explicit_pattern_large (p : Nat) (h : IsExplicitPattern p) : 0xFFFF < p := by
  rcases h with h | ⟨v, h⟩ | ⟨v, h⟩ | ⟨v, h⟩ | ⟨v, h⟩ | ⟨v, h⟩ | ⟨lo, hi, h⟩ |
    ⟨lo, hi, h⟩ | ⟨t, h⟩ <;> subst h
  · decide
  · rw [gt_eq]; omega
  · rw [ge_eq]; omega
  · rw [lt_eq]; omega
  · rw [le_eq]; omega
  · rw [ne_eq_pat]; omega
  · rw [range_eq]; omega
  · rw [between_eq]; omega
  · rw [variant_eq]; omega

/-- Any pattern word above 0xFFFF fails the heuristic's small-literal
guard, so `evaluate_pattern_enhanced` reduces to `evaluate_pattern`. -/
theorem enhanced_fallback (mem : Mem) (subject : Nat) (actual : Int) (p : Nat)
    (h : 0xFFFF < p) :
    evaluate_pattern_enhanced mem subject actual p = evaluate_pattern mem actual p := by
  have hc : ¬(p ≤ 0xFFFF ∧ p >>> 60 = 0) := fun hc => absurd hc.1 (by omega)
  unfold evaluate_pattern_enhanced
  split
  · simp only [hc, if_false]
  · rfl

/-- C9: on every explicitly encoded pattern — wildcard, gt/ge/lt/le/ne,
range, between, or variant(tag) — the enhanced entry point returns exactly
the plain evaluator's result (boolean and extraction side effect alike):
the auto-variant heuristic never fires on an explicit pattern form. -/
theorem C9_enhanced_refines_plain (mem : Mem) (subject : Nat) (actual : Int) (p : Nat)
    (h : IsExplicitPattern p) :
    evaluate_pattern_enhanced mem subject actual p = evaluate_pattern mem actual p :=
  enhanced_fallback mem subject actual p (explicit_pattern_large p h)

/-- Witness for C9's theorem: an explicit `gt(3)` pattern evaluated
against subject 5 with a struct-like subject pointer present. -/
theorem C9_witness :
    evaluate_pattern_enhanced mem4 0x2000 5 (gt 3) = evaluate_pattern mem4 5 (gt 3) :=
  C9_enhanced_refines_plain mem4 0x2000 5 (gt 3) (Or.inr (Or.inl ⟨3, rfl⟩))

/-! ### Statement-form dispatch (match / when / otherwise) -/

/-- match.h:638-706 — the pattern tests of one `when` clause: the
conjunction over all positions of
`evaluate_pattern_enhanced(__vi_orig, (intptr_t)__vi, patternᵢ)`.  A
subject is the pair of the `__vi_orig` pointer word and the `__vi`
integer value the macros bind for argument i. -/
def clauseMatches (mem : Mem) (subjects : List (Nat × Int)) (patterns : List Nat) : Bool :=
  (subjects.zip patterns).all fun sp =>
    (evaluate_pattern_enhanced mem sp.fst.fst sp.fst.snd sp.snd).fst

/-- match.h:493-706 — the statement-form dispatch: `__matched` starts 0;
each `when` clause is an `if (!__matched && <patterns> && (__matched = 1))`
around its body.  Returns, for the given initial flag, the list telling
for each clause whether its body executed, together with the final flag. -/
def runWhenClauses (mem : Mem) (subjects : List (Nat × Int)) :
    List (List Nat) → Bool → List Bool × Bool
  | [], matched => ([], matched)
  | ps :: rest, matched =>
    let fired := !matched && clauseMatches mem subjects ps
    let r := runWhenClauses mem subjects rest (matched || fired)
    (fired :: r.fst, r.snd)

/-- match.h:708 — `otherwise` is `else if (!__matched && (__matched = 1))`
behind the last `when`: its body executes exactly when the dispatch is
still unresolved after all `when` clauses (when the last clause fired, the
`else` is skipped, but then the flag is set anyway, so the two conditions
agree). -/
def otherwiseRuns (finalMatched : Bool) : Bool := !finalMatched

/-- Modelled from the spec (§4.3): the index of the first clause whose
patterns all match, if any. -/
def firstMatch (mem : Mem) (subjects : List (Nat × Int)) : List (List Nat) → Option Nat
  | [] => none
  | ps :: rest =>
      if clauseMatches mem subjects ps then some 0
      else (firstMatch mem subjects rest).map (· + 1)

theorem runWhenClauses_resolved (mem : Mem) (s : List (Nat × Int)) :
    ∀ cs : List (List Nat),
      runWhenClauses mem s cs true = (List.replicate cs.length false, true)
  | [] => rfl
  | ps :: rest => by
    simp [runWhenClauses, runWhenClauses_resolved mem s rest, List.replicate]

/-- With the flag still clear, the head clause fires iff its patterns
match, and the tail runs with the flag set accordingly. -/
theorem runWhenClauses_cons_false (mem : Mem) (s : List (Nat × Int))
    (ps : List Nat) (rest : List (List Nat)) :
    runWhenClauses mem s (ps :: rest) false =
      (clauseMatches mem s ps ::
          (runWhenClauses mem s rest (clauseMatches mem s ps)).fst,
        (runWhenClauses mem s rest (clauseMatches mem s ps)).snd) := by
  cases hc : clauseMatches mem s ps <;> simp [runWhenClauses, hc]

theorem runWhenClauses_snd (mem : Mem) (s : List (Nat × Int)) :
    ∀ (cs : List (List Nat)) (m : Bool),
      (runWhenClauses mem s cs m).snd = (m || cs.any (clauseMatches mem s))
  | [], m => by simp [runWhenClauses]
  | ps :: rest, m => by
    have h : (m || (!m && clauseMatches mem s ps)) = (m || clauseMatches mem s ps) := by
      cases m <;> rfl
    simp only [runWhenClauses, runWhenClauses_snd mem s rest, h, List.any_cons]
    cases m <;> cases clauseMatches mem s ps <;> simp

theorem firstMatch_none_iff (mem : Mem) (s : List (Nat × Int)) :
    ∀ cs : List (List Nat),
      (firstMatch mem s cs = none ↔ cs.any (clauseMatches mem s) = false)
  | [] => by simp [firstMatch]
  | ps :: rest => by
    by_cases h : clauseMatches mem s ps
    · simp [firstMatch, h]
    · simp only [firstMatch, h, if_false, List.any_cons, Option.map_eq_none']
      simp [firstMatch_none_iff mem s rest, h]

theorem runWhenClauses_fired_iff (mem : Mem) (s : List (Nat × Int)) :
    ∀ (cs : List (List Nat)) (i : Nat),
      ((runWhenClauses mem s cs false).fst[i]? = some true
        ↔ firstMatch mem s cs = some i)
  | [], i => by simp [runWhenClauses, firstMatch]
  | ps :: rest, i => by
    rw [runWhenClauses_cons_false]
    by_cases hc : clauseMatches mem s ps
    · rw [hc, runWhenClauses_resolved]
      cases i with
      | zero => simp [firstMatch, hc]
      | succ j =>
        simp only [List.getElem?_cons_succ, List.getElem?_replicate, firstMatch, hc,
          if_pos]
        split <;> simp
    · have hc' : clauseMatches mem s ps = false := by simpa using hc
      rw [hc']
      cases i with
      | zero =>
        simp [firstMatch, hc', Option.map_eq_some']
      | succ j =>
        simp only [List.getElem?_cons_succ, firstMatch, hc', if_false]
        rw [runWhenClauses_fired_iff mem s rest j]
        constructor
        · intro he; rw [he]; rfl
        · intro he
          rcases Option.map_eq_some'.mp he with ⟨k, hk, hkj⟩
          have hkj' : k = j := by omega
          rw [← hkj', hk]

theorem runWhenClauses_count (mem : Mem) (s : List (Nat × Int)) :
    ∀ cs : List (List Nat), (runWhenClauses mem s cs false).fst.count true ≤ 1
  | [] => by simp [runWhenClauses]
  | ps :: rest => by
    rw [runWhenClauses_cons_false]
    by_cases hc : clauseMatches mem s ps
    · rw [hc, runWhenClauses_resolved]
      simp [List.count_cons, List.count_replicate]
    · have hc' : clauseMatches mem s ps = false := by simpa using hc
      rw [hc']
      have h := runWhenClauses_count mem s rest
      simp only [List.count_cons]
      simpa using h

theorem runWhenClauses_count_zero (mem : Mem) (s : List (Nat × Int))
    (cs : List (List Nat)) (h : firstMatch mem s cs = none) :
    (runWhenClauses mem s cs false).fst.count true = 0 := by
  rw [List.count_eq_zero]
  intro hmem
  rcases List.mem_iff_getElem?.mp hmem with ⟨i, hget⟩
  have h2 := (runWhenClauses_fired_iff mem s cs i).mp hget
  rw [h] at h2
  exact Option.noConfusion h2

/-- C1: statement-form dispatch is first-match-wins.  For every memory,
subject list and ordered clause list (each clause the pattern list of one
`when`): (i) clause i's body executes iff i is the first index whose
patterns all match — so every clause after the first match, and every
clause when none matches, is skipped; (ii) at most one `when` body runs;
(iii) `otherwise` runs iff no `when` clause matched; (iv) counting
`otherwise`, at most one body runs per dispatch. -/
theorem C1_first_match_wins (mem : Mem) (subjects : List (Nat × Int))
    (clauses : List (List Nat)) :
    (∀ i : Nat,
        ((runWhenClauses mem subjects clauses false).fst[i]? = some true
          ↔ firstMatch mem subjects clauses = some i)) ∧
    ((runWhenClauses mem subjects clauses false).fst.count true ≤ 1) ∧
    (otherwiseRuns (runWhenClauses mem subjects clauses false).snd = true
      ↔ firstMatch mem subjects clauses = none) ∧
    ((runWhenClauses mem subjects clauses false).fst.count true
        + (if otherwiseRuns (runWhenClauses mem subjects clauses false).snd = true
            then 1 else 0) ≤ 1) := by
  refine ⟨fun i => runWhenClauses_fired_iff mem subjects clauses i,
    runWhenClauses_count mem subjects clauses, ?_, ?_⟩
  · unfold otherwiseRuns
    rw [runWhenClauses_snd, firstMatch_none_iff]
    cases clauses.any (clauseMatches mem subjects) <;> simp
  · by_cases h : firstMatch mem subjects clauses = none
    · rw [runWhenClauses_count_zero mem subjects clauses h]
      split <;> omega
    · have ho : otherwiseRuns (runWhenClauses mem subjects clauses false).snd = false := by
        unfold otherwiseRuns
        rw [runWhenClauses_snd]
        rcases Option.ne_none_iff_exists'.mp h with ⟨i, hi⟩
        have hany : clauses.any (clauseMatches mem subjects) = true := by
          by_contra hany
          have h2 := (firstMatch_none_iff mem subjects clauses).mpr (by simpa using hany)
          rw [h2] at hi
          exact Option.noConfusion hi
        simp [hany]
      rw [ho]
      simpa using runWhenClauses_count mem subjects clauses

/-- Witness for C1's theorem: subject 5 against clauses `[literal 1]`,
`[literal 5]`, `[literal 5]` — only the second clause (the first that
matches) executes. -/
theorem C1_witness :
    ((runWhenClauses mem0 [(5, 5)] [[literal 1], [literal 5], [literal 5]] false).fst[1]?
        = some true
      ↔ firstMatch mem0 [(5, 5)] [[literal 1], [literal 5], [literal 5]] = some 1) :=
  (C1_first_match_wins mem0 [(5, 5)] [[literal 1], [literal 5], [literal 5]]).1 1

/-- When the subject is a struct pointer (sane address), its leading
`uint32` field is a small nonzero tag `t`, and the pattern is the bare
small literal `t`, the heuristic fires: the subject auto-matches as a
variant and the payload handle is extracted. -/
theorem enhanced_auto_variant (mem : Mem) (addr t : Nat) (h1 : 0x1000 < addr)
    (h2 : addr < 9223372036854775808) (h3 : readU32 mem addr = t) (h4 : 0 < t)
    (h5 : t ≤ 0xFFFF) :
    evaluate_pattern_enhanced mem addr (addr : Int) t
      = (true, some (addr + VARIANT_UNION_OFFSET)) := by
  have hu : u64 (addr : Int) = addr := u64_ofNat addr (by omega)
  have hshift : t >>> 60 = 0 := by rw [Nat.shiftRight_eq_div_pow]; omega
  have hmod : t % 4294967296 = t := Nat.mod_eq_of_lt (by omega)
  have hvp : (0x8000000000000000 : Nat) ||| ((t <<< 16) ||| 1) = variant t := by
    unfold variant; rw [hmod]
  have hne : addr ≠ 0 := by omega
  unfold evaluate_pattern_enhanced
  rw [if_pos ⟨hne, h1⟩]
  simp only [hu, ite_self, hshift, h3, hmod, hvp]
  rw [if_pos trivial, i64_ofNat addr h2, evaluate_variant mem addr t h2 (by omega),
    if_pos h3]
  rw [if_pos (And.intro h5 trivial), if_pos (And.intro h4 h5)]

/-- Modelled from the claim of C4 (spec §4.2 rule 6): clause evaluation
as the claim describes it — the heuristic available only at the first
subject position, positions 2..N evaluated with the plain evaluator. -/
def clauseMatchesFirstOnly (mem : Mem) (subjects : List (Nat × Int))
    (patterns : List Nat) : Bool :=
  match subjects, patterns with
  | s :: srest, p :: prest =>
      (evaluate_pattern_enhanced mem s.fst s.snd p).fst &&
        ((srest.zip prest).all fun sp => (evaluate_pattern mem sp.fst.snd sp.snd).fst)
  | _, _ => true

/-- C4: the claim restricts the auto-variant heuristic to the first
subject position, but every position of `WHEN_N` calls
`evaluate_pattern_enhanced` with that position's own subject pointer
(match.h:644-645), so a bare tag literal auto-matches a tagged-union
subject at position 2 as well: with TaggedValues (tag 1 at 0x3000, tag 3
at 0x2000) and patterns `(1, 3)` the clause matches, while the claim's
first-position-only evaluation rejects it. -/
theorem C4_counterexample :
    clauseMatches mem4 [(0x3000, 0x3000), (0x2000, 0x2000)] [1, 3] = true ∧
      clauseMatchesFirstOnly mem4 [(0x3000, 0x3000), (0x2000, 0x2000)] [1, 3] = false := by
  decide

/-- C4 (amended): the auto-variant heuristic is applied uniformly at
every subject position of a dispatch (still only when the pattern is a
small non-special integer literal): appending a tagged-union subject
with a bare small tag literal to any clause — putting it at an arbitrary
position at least 2 whenever the clause is nonempty — leaves the clause's
match status unchanged, the appended position matching via the
heuristic. -/
theorem C4_heuristic_any_position (mem : Mem) (subjects : List (Nat × Int))
    (patterns : List Nat) (hlen : subjects.length = patterns.length)
    (addr t : Nat) (h1 : 0x1000 < addr) (h2 : addr < 9223372036854775808)
    (h3 : readU32 mem addr = t) (h4 : 0 < t) (h5 : t ≤ 0xFFFF) :
    clauseMatches mem (subjects ++ [(addr, (addr : Int))]) (patterns ++ [t])
      = clauseMatches mem subjects patterns ∧
    (evaluate_pattern_enhanced mem addr (addr : Int) t).fst = true := by
  have hfire := enhanced_auto_variant mem addr t h1 h2 h3 h4 h5
  constructor
  · unfold clauseMatches
    rw [List.zip_append hlen, List.all_append]
    simp [hfire]
  · rw [hfire]

/-- Witness for C4's theorem: appending the tagged subject at 0x2000
(tag 3) with bare pattern 3 to the one-position clause `(1)` keeps the
clause matching — the heuristic fires at position 2. -/
theorem C4_witness :
    clauseMatches mem4 [(0x3000, 0x3000), (0x2000, 0x2000)] [1, 3]
      = clauseMatches mem4 [(0x3000, 0x3000)] [1] ∧
    (evaluate_pattern_enhanced mem4 0x2000 (0x2000 : Int) 3).fst = true :=
  C4_heuristic_any_position mem4 [(0x3000, 0x3000)] [1] rfl 0x2000 3 (by norm_num)
    (by norm_num) (by decide) (by norm_num) (by norm_num)

/-! ### Generic Option / Result family (CreateResult / CreateOption) -/

/-- match.h:172-175 — common result tags. -/
def Ok : Nat := 1

/-- match.h:172-175 — common result tags. -/
def Err : Nat := 2

/-- match.h:934-937 — common option tags. -/
def Some : Nat := 3

/-- match.h:934-937 — common option tags. -/
def None : Nat := 4

/-- match.h:181-189 — `CreateResult(TYPE)`: a `uint32` tag followed by a
union of the payload `value` and the `char* error` message (the padding
field has no semantic content and is omitted).  Exactly one union member
is valid at a time, which the sum models. -/
structure Result_T (T : Type) where
  tag : Nat
  payload : T ⊕ String

/-- match.h:191-193 — `ok_TYPE(val)`. -/
def ok_T {T : Type} (val : T) : Result_T T := ⟨Ok, Sum.inl val⟩

/-- match.h:195-197 — `err_TYPE(msg)`. -/
def err_T {T : Type} (msg : String) : Result_T T := ⟨Err, Sum.inr msg⟩

/-- match.h:247 — `is_ok(result_ptr)`. -/
def is_ok {T : Type} (r : Result_T T) : Bool := r.tag == Ok

/-- match.h:248 — `is_err(result_ptr)`. -/
def is_err {T : Type} (r : Result_T T) : Bool := r.tag == Err

/-- match.h:250-251 — `unwrap_or(result_ptr, default_val)`: the payload
when the tag is `Ok`, else the default.  In C the guarded branch reads the
union's `value` member; reading it when the union holds the error string
is undefined, and the model returns the default in that unreachable
case. -/
def unwrap_or {T : Type} (r : Result_T T) (default_val : T) : T :=
  if is_ok r then
    match r.payload with
    | Sum.inl v => v
    | Sum.inr _ => default_val
  else default_val

/-- match.h:943-951 — `CreateOption(TYPE)`: a `uint32` tag followed by a
union of the payload `value` and a one-byte padding member (present so
the union is never empty); `some v` is a valid `value`, `none` the
padding. -/
structure Option_T (T : Type) where
  tag : Nat
  payload : Option T

/-- match.h:953-955 — `some_TYPE(val)`. -/
def some_T {T : Type} (val : T) : Option_T T := ⟨Some, some val⟩

/-- match.h:957-959 — `none_TYPE()`. -/
def none_T {T : Type} : Option_T T := ⟨None, none⟩

/-- match.h:1009 — `is_some(option_ptr)`. -/
def is_some {T : Type} (o : Option_T T) : Bool := o.tag == Some

/-- match.h:1010 — `is_none(option_ptr)`. -/
def is_none {T : Type} (o : Option_T T) : Bool := o.tag == None

/-- match.h:1012-1013 — `unwrap_option_or(option_ptr, default_val)`: the
payload when the tag is `Some`, else the default.  Reading the union's
`value` member when no payload is stored is undefined in C; the model
returns the default in that unreachable case. -/
def unwrap_option_or {T : Type} (o : Option_T T) (default_val : T) : T :=
  if is_some o then o.payload.getD default_val else default_val

/-- match.h:1049-1051 — `OPTION_TO_RESULT(option_ptr, error_msg, type)`:
`ok` of the payload when `is_some`, else `err(error_msg)`.  The guarded
union read is modelled as for `unwrap_option_or`. -/
def OPTION_TO_RESULT {T : Type} (o : Option_T T) (error_msg : String) : Result_T T :=
  if is_some o then
    match o.payload with
    | some v => ok_T v
    | none => err_T error_msg
  else err_T error_msg

/-- match.h:1054-1056 — `RESULT_TO_OPTION(result_ptr, type)`: `some` of
the payload when `is_ok`, else `none` (the error message is discarded). -/
def RESULT_TO_OPTION {T : Type} (r : Result_T T) : Option_T T :=
  if is_ok r then
    match r.payload with
    | Sum.inl v => some_T v
    | Sum.inr _ => none_T
  else none_T

/-- C7: `unwrapOr` returns the payload of `some(v)`/`ok(v)` and the
default for `none()`/`err(m)` (totally, never raising); the four
predicates hold on their own constructor and fail on the opposite one. -/
theorem C7_option_result_basics (T : Type) (v : T) (m : String) (d : T) :
    unwrap_option_or (some_T v) d = v ∧
    unwrap_option_or (none_T : Option_T T) d = d ∧
    unwrap_or (ok_T v) d = v ∧
    unwrap_or (err_T (T := T) m) d = d ∧
    is_some (some_T v) = true ∧
    is_none (none_T : Option_T T) = true ∧
    is_ok (ok_T v) = true ∧
    is_err (err_T (T := T) m) = true ∧
    is_some (none_T : Option_T T) = false ∧
    is_none (some_T v) = false ∧
    is_ok (err_T (T := T) m) = false ∧
    is_err (ok_T v) = false := by
  refine ⟨rfl, rfl, rfl, rfl, rfl, rfl, rfl, rfl, rfl, rfl, rfl, rfl⟩

/-- Witness for C7's theorem: payload type Nat, payload 5, default 0. -/
theorem C7_witness :
    unwrap_option_or (some_T (5 : Nat)) 0 = 5 ∧
    unwrap_option_or (none_T : Option_T Nat) 0 = 0 ∧
    unwrap_or (ok_T (5 : Nat)) 0 = 5 ∧
    unwrap_or (err_T (T := Nat) "m") 0 = 0 ∧
    is_some (some_T (5 : Nat)) = true ∧
    is_none (none_T : Option_T Nat) = true ∧
    is_ok (ok_T (5 : Nat)) = true ∧
    is_err (err_T (T := Nat) "m") = true ∧
    is_some (none_T : Option_T Nat) = false ∧
    is_none (some_T (5 : Nat)) = false ∧
    is_ok (err_T (T := Nat) "m") = false ∧
    is_err (ok_T (5 : Nat)) = false :=
  C7_option_result_basics Nat 5 "m" 0

/-- The values the Option API can construct: `some_TYPE(v)` or
`none_TYPE()` (spec §3 invariant: exactly one variant holds a payload). -/
def Option_T.WellFormed {T : Type} (o : Option_T T) : Prop :=
  (∃ v, o = some_T v) ∨ o = none_T

/-- C8: converting an Option to a Result and back preserves unwrapping —
for every API-constructed Option value `opt`, error message `e` and
default `d`, `unwrapOr(resultToOption(optionToResult(opt, e)), d)` equals
`unwrapOr(opt, d)`. -/
theorem C8_roundtrip (T : Type) (opt : Option_T T) (e : String) (d : T)
    (h : opt.WellFormed) :
    unwrap_option_or (RESULT_TO_OPTION (OPTION_TO_RESULT opt e)) d
      = unwrap_option_or opt d := by
  rcases h with ⟨v, rfl⟩ | rfl <;> rfl

/-- Witness for C8's theorem: both constructors at payload type Nat. -/
theorem C8_witness :
    unwrap_option_or (RESULT_TO_OPTION (OPTION_TO_RESULT (some_T (5 : Nat)) "e")) 0
      = unwrap_option_or (some_T (5 : Nat)) 0 :=
  C8_roundtrip Nat (some_T 5) "e" 0 (Or.inl ⟨5, rfl⟩)

end CMatch
